import Mathlib

/-!
Verification of the strike lifecycle engine of HammerOfJustice.

The model is a shallow embedding of `database.py`, `strike_manager.py`,
`config.py` and the summary-building part of `dashboard.py`.  Time is a
`Nat` tick count (the unit is hours for strike expiry, so that
`reset_time = now + STRIKE_RESET_HOURS` matches
`now + timedelta(hours=reset_hours)`; punishment durations are minutes,
a separate scale that never mixes with expiry times).  The sqlite store
becomes an explicit state record holding the `strikes` rows in insertion
order (ascending autoincrement id) and the `violations` rows.
-/

namespace HammerOfJustice

/-- One row of the `strikes` table (`database.py` lines 52-62):
id, user_id, moderator_id, reason, timestamp, reset_time, active. -/
structure Strike where
  id : Nat
  user_id : Nat
  moderator_id : Nat
  reason : String
  timestamp : Nat
  reset_time : Nat
  active : Bool
deriving Repr, DecidableEq

/-- One row of the `violations` table (`database.py` lines 65-71):
user_id (primary key), violation_count, last_timeout. -/
structure ViolationRow where
  user_id : Nat
  violation_count : Nat
  last_timeout : Option Nat
deriving Repr, DecidableEq

/-- The persistent store: the `strikes` rows in insertion order (ascending
autoincrement id), the `violations` rows, and the next autoincrement id. -/
structure StrikeDatabase where
  strikes : List Strike
  violations : List ViolationRow
  next_id : Nat
deriving Repr, DecidableEq

/-- `STRIKE_RESET_HOURS` from `config.py` line 14. -/
def STRIKE_RESET_HOURS : Nat := 72

/-- `PUNISHMENT_ESCALATION` from `config.py` lines 21-28, as an association
list (violation_count, timeout minutes) in the dict's insertion order. -/
def PUNISHMENT_ESCALATION : List (Nat × Nat) :=
  [(1, 5), (2, 10), (3, 60), (4, 120), (5, 180), (6, 1440)]

/-- Python `dict.get(key, default)` on an association list. -/
def dictGet (d : List (Nat × Nat)) (key default : Nat) : Nat :=
  match d.lookup key with
  | some v => v
  | none => default

/-- A strike row of `uid` counted by `COUNT(*) ... WHERE user_id = ? AND active = 1`. -/
def isActiveOf (uid : Nat) (s : Strike) : Bool :=
  s.user_id == uid && s.active

/-- The user's active-strike count (`SELECT COUNT(*) FROM strikes WHERE
user_id = ? AND active = 1`, `database.py` lines 107-111 and 146-150). -/
def activeCount (db : StrikeDatabase) (uid : Nat) : Nat :=
  (db.strikes.filter (isActiveOf uid)).length

/-- `StrikeDatabase.get_violation_count` (`database.py` lines 251-262):
the stored count, defaulting to 0 when the row is absent. -/
def get_violation_count (db : StrikeDatabase) (uid : Nat) : Nat :=
  match db.violations.find? (fun v => v.user_id == uid) with
  | some v => v.violation_count
  | none => 0

/-- `INSERT OR REPLACE INTO violations` keyed by user_id: replace the
user's row in place, or append a fresh row. -/
def upsertViolation (uid cnt now : Nat) : List ViolationRow → List ViolationRow
  | [] => [⟨uid, cnt, some now⟩]
  | v :: rest =>
      if v.user_id == uid then ⟨uid, cnt, some now⟩ :: rest
      else v :: upsertViolation uid cnt now rest

/-- `StrikeDatabase.increment_violation_count` (`database.py` lines 226-249):
writes `COALESCE(stored, 0) + 1` and returns the value read back. -/
def increment_violation_count (db : StrikeDatabase) (uid now : Nat) :
    Nat × StrikeDatabase :=
  let newCount := get_violation_count db uid + 1
  (newCount, { db with violations := upsertViolation uid newCount now db.violations })

/-- `StrikeDatabase.add_strike` (`database.py` lines 89-120): insert an
active strike with `timestamp = now` and `reset_time = now + reset_hours`,
then read back the user's active-strike count.  Returns
(strike_id, strike_count, new store). -/
def add_strike (db : StrikeDatabase) (uid mid : Nat) (reason : String)
    (reset_hours now : Nat) : Nat × Nat × StrikeDatabase :=
  let s : Strike := ⟨db.next_id, uid, mid, reason, now, now + reset_hours, true⟩
  let db' : StrikeDatabase :=
    { db with strikes := db.strikes ++ [s], next_id := db.next_id + 1 }
  (s.id, activeCount db' uid, db')

/-- Insertion step of the stable `ORDER BY timestamp DESC` model: the new
element goes in front of the first element whose timestamp is not larger,
so rows with equal timestamps keep their scan (insertion) order. -/
def insertTsDesc (s : Strike) : List Strike → List Strike
  | [] => [s]
  | t :: ts =>
      if t.timestamp ≤ s.timestamp then s :: t :: ts
      else t :: insertTsDesc s ts

/-- Stable sort by `timestamp` descending, modelling
`ORDER BY timestamp DESC` over the scan in rowid order. -/
def sortTsDesc : List Strike → List Strike
  | [] => []
  | s :: ss => insertTsDesc s (sortTsDesc ss)

/-- `StrikeDatabase.get_active_strikes` (`database.py` lines 122-137):
the user's active strikes ordered by timestamp descending (the SQL names
no tie-break; the model keeps the scan order among equal timestamps). -/
def get_active_strikes (db : StrikeDatabase) (uid : Nat) : List Strike :=
  sortTsDesc (db.strikes.filter (isActiveOf uid))

/-- The smallest element of a list of naturals, `none` when empty
(SQL `MIN(...)` over a possibly empty selection). -/
def minOfList : List Nat → Option Nat
  | [] => none
  | x :: xs =>
      match minOfList xs with
      | none => some x
      | some m => some (min x m)

/-- Result shape of `get_user_strike_info`. -/
structure UserStrikeInfo where
  active_strikes : Nat
  next_reset : Option Nat
  violation_count : Nat
deriving Repr, DecidableEq

/-- `StrikeDatabase.get_user_strike_info` (`database.py` lines 139-177):
active-strike count, `MIN(reset_time)` over the user's active strikes,
and the violation count (0 when absent). -/
def get_user_strike_info (db : StrikeDatabase) (uid : Nat) : UserStrikeInfo :=
  let act := db.strikes.filter (isActiveOf uid)
  { active_strikes := act.length
    next_reset := minOfList (act.map (fun s => s.reset_time))
    violation_count := get_violation_count db uid }

/-- Whether a strike row is hit by `WHERE reset_time < ? AND active = 1`. -/
def isDue (now : Nat) (s : Strike) : Bool :=
  decide (s.reset_time < now) && s.active

/-- Row effect of the expiry `UPDATE`: deactivate the row when the
`WHERE` clause hits it, leave it untouched otherwise. -/
def sweepFlip (now : Nat) (s : Strike) : Strike :=
  if isDue now s then { s with active := false } else s

/-- `StrikeDatabase.reset_expired_strikes` (`database.py` lines 201-224):
`UPDATE strikes SET active = 0 WHERE reset_time < now AND active = 1`,
returning the number of rows changed. -/
def reset_expired_strikes (db : StrikeDatabase) (now : Nat) :
    Nat × StrikeDatabase :=
  ((db.strikes.filter (isDue now)).length,
   { db with strikes := db.strikes.map (sweepFlip now) })

/-- Row effect of `UPDATE strikes SET active = 0 WHERE id = ?`. -/
def deactFlip (sid : Nat) (s : Strike) : Strike :=
  if s.id == sid then { s with active := false } else s

/-- `UPDATE strikes SET active = 0 WHERE id = ?`
(`strike_manager.py` lines 76-78). -/
def deactivateStrike (db : StrikeDatabase) (sid : Nat) : StrikeDatabase :=
  { db with strikes := db.strikes.map (deactFlip sid) }

/-- Outcome of `StrikeManager.check_punishment`: the violation count it
returns, the store afterwards, the timeout duration requested from the
platform (`none` below the threshold), and whether the timeout call
succeeded. -/
structure PunishOutcome where
  violation_count : Nat
  db : StrikeDatabase
  requested : Option Nat
  applied : Bool
deriving Repr, DecidableEq

/-- `StrikeManager.check_punishment` (`strike_manager.py` lines 40-59).
`timeoutOk` is whether `user.timeout` succeeds; when it raises
(`discord.Forbidden` or any other error) the handler returns
`self.db.get_violation_count(user.id)` read from the store, which already
holds the increment. -/
def check_punishment (db : StrikeDatabase) (uid strike_count now : Nat)
    (timeoutOk : Bool) : PunishOutcome :=
  if 3 ≤ strike_count then
    let r := increment_violation_count db uid now
    let dur := dictGet PUNISHMENT_ESCALATION r.1 1440
    if timeoutOk then ⟨r.1, r.2, some dur, true⟩
    else ⟨get_violation_count r.2 uid, r.2, some dur, false⟩
  else ⟨get_violation_count db uid, db, none, false⟩

/-- The dict returned by a successful `give_strike`
(`strike_manager.py` lines 24-29). -/
structure GiveStrikeResult where
  strike_id : Nat
  strike_count : Nat
  violation_count : Nat
  next_reset : Nat
deriving Repr, DecidableEq

/-- Outcome of `give_strike`: the returned dict, the store afterwards, and
the enforcement information of the inner `check_punishment`. -/
structure GiveStrikeOutcome where
  result : GiveStrikeResult
  db : StrikeDatabase
  requested : Option Nat
  applied : Bool
deriving Repr, DecidableEq

/-- Fault injection for a store call inside a `try` block: `none` means
the call returns its value, `some e` means it raises `e`. -/
def attempt {α : Type} (fault : Option String) (a : α) : Except String α :=
  match fault with
  | none => Except.ok a
  | some e => Except.error e

/-- The `try` body of `StrikeManager.give_strike` (`strike_manager.py`
lines 16-29): `add_strike` (which rolls back and re-raises on error, so a
raise leaves the store unchanged), then `check_punishment`, whose final
store read (lines 54, 57 or 59) may itself raise after the punishment
state change is already committed — `readFault` injects that failure. -/
def give_strikeTry (db : StrikeDatabase) (uid mid : Nat) (reason : String)
    (now : Nat) (timeoutOk : Bool) (addFault readFault : Option String) :
    Except String GiveStrikeOutcome := do
  let a ← attempt addFault (add_strike db uid mid reason STRIKE_RESET_HOURS now)
  let po := check_punishment a.2.2 uid a.2.1 now timeoutOk
  let vc ← attempt readFault po.violation_count
  pure ⟨⟨a.1, a.2.1, vc, now + STRIKE_RESET_HOURS⟩, po.db, po.requested, po.applied⟩

/-- `StrikeManager.give_strike` (`strike_manager.py` lines 14-38): the
`try` body, with any raise caught and converted to the zeroed dict
`{strike_id: 0, strike_count: 0, violation_count: 0, next_reset: now}`.
A raise after `add_strike` leaves the punishment state change committed. -/
def give_strike (db : StrikeDatabase) (uid mid : Nat) (reason : String)
    (now : Nat) (timeoutOk : Bool) (addFault readFault : Option String) :
    GiveStrikeOutcome :=
  match give_strikeTry db uid mid reason now timeoutOk addFault readFault with
  | Except.ok r => r
  | Except.error _ =>
      match attempt addFault (add_strike db uid mid reason STRIKE_RESET_HOURS now) with
      | Except.error _ => ⟨⟨0, 0, 0, now⟩, db, none, false⟩
      | Except.ok a =>
          let po := check_punishment a.2.2 uid a.2.1 now timeoutOk
          ⟨⟨0, 0, 0, now⟩, po.db, po.requested, po.applied⟩

/-- The dict returned by `StrikeManager.remove_strike`. -/
structure RemoveResult where
  removed : Bool
  strike_count : Nat
  violation_count : Nat
deriving Repr, DecidableEq

/-- `StrikeManager.remove_strike` (`strike_manager.py` lines 61-96):
no-op when the user has no active strikes; otherwise deactivate the first
strike of `get_active_strikes` and read the updated info back. -/
def remove_strike (db : StrikeDatabase) (uid : Nat) :
    RemoveResult × StrikeDatabase :=
  match get_active_strikes db uid with
  | [] => (⟨false, 0, get_violation_count db uid⟩, db)
  | top :: _ =>
      let db' := deactivateStrike db top.id
      let info := get_user_strike_info db' uid
      (⟨true, info.active_strikes, info.violation_count⟩, db')

/-- Row effect of `UPDATE strikes SET active = 0 WHERE user_id = ? AND
active = 1`. -/
def resetFlip (uid : Nat) (s : Strike) : Strike :=
  if isActiveOf uid s then { s with active := false } else s

/-- The dict returned by `StrikeManager.reset_all_strikes`. -/
structure ResetAllResult where
  strikes_removed : Nat
  violation_count : Nat
deriving Repr, DecidableEq

/-- `StrikeManager.reset_all_strikes` (`strike_manager.py` lines 98-127):
no-op when the user has no active strikes; otherwise
`UPDATE strikes SET active = 0 WHERE user_id = ? AND active = 1`. -/
def reset_all_strikes (db : StrikeDatabase) (uid : Nat) :
    ResetAllResult × StrikeDatabase :=
  let info := get_user_strike_info db uid
  if info.active_strikes == 0 then (⟨0, info.violation_count⟩, db)
  else
    (⟨info.active_strikes, info.violation_count⟩,
     { db with strikes := db.strikes.map (resetFlip uid) })

/-- Reason shown by the dashboard (`dashboard.py` lines 94-97):
`reason[:47] + "..."` when `len(reason) > 50`, verbatim otherwise. -/
def truncateReason (reason : String) : String :=
  if 50 < reason.length then reason.take 47 ++ "..." else reason

/-- The `Last Reason` field of a user's dashboard entry (`dashboard.py`
lines 57-97): the reason of `strikes[0]`, the newest active strike of the
user in the `ORDER BY s.user_id, s.timestamp DESC` grouping of
`get_all_active_strikes` — per user the same newest-first order as
`get_active_strikes` — passed through the truncation; `none` when the
user has no active strikes (no entry is shown). -/
def dashboardLastReason (db : StrikeDatabase) (uid : Nat) : Option String :=
  match get_active_strikes db uid with
  | [] => none
  | top :: _ => some (truncateReason top.reason)

/-- One moderator/sweep action on the store, at the engine boundary of
`strike_manager.py`. -/
inductive StrikeOp where
  | give (uid mid : Nat) (reason : String) (timeoutOk : Bool)
      (addFault readFault : Option String)
  | removeOne (uid : Nat)
  | resetAll (uid : Nat)
  | sweep
deriving Repr

/-- Apply one engine operation at time `now`, keeping only the store. -/
def applyOp (now : Nat) (db : StrikeDatabase) : StrikeOp → StrikeDatabase
  | StrikeOp.give uid mid reason ok f1 f2 =>
      (give_strike db uid mid reason now ok f1 f2).db
  | StrikeOp.removeOne uid => (remove_strike db uid).2
  | StrikeOp.resetAll uid => (reset_all_strikes db uid).2
  | StrikeOp.sweep => (reset_expired_strikes db now).2

/-- Run a sequence of timed engine operations. -/
def runOps (db : StrikeDatabase) : List (Nat × StrikeOp) → StrikeDatabase
  | [] => db
  | (now, op) :: rest => runOps (applyOp now db op) rest

/-- Sample store: user 1 holds two active strikes issued in the same
timestamp tick (ids 1 and 2), as two inserts inside one clock tick
produce. -/
def tieDb : StrikeDatabase :=
  ⟨[⟨1, 1, 9, "spam", 100, 172, true⟩, ⟨2, 1, 9, "flood", 100, 172, true⟩], [], 3⟩

/-- Sample store: user 1 holds one active strike that expires at tick 10. -/
def earlyExpiryDb : StrikeDatabase :=
  ⟨[⟨1, 1, 9, "old", 0, 10, true⟩], [], 2⟩

/-- Sample store: user 1 holds two active strikes, with violation count 4. -/
def escalatedDb : StrikeDatabase :=
  ⟨[⟨1, 1, 9, "spam", 0, 72, true⟩, ⟨2, 1, 9, "flood", 1, 73, true⟩],
   [⟨1, 4, some 1⟩], 3⟩

/-- A 48-character reason. -/
def reason48 : String :=
  String.mk (List.replicate 48 'a')

/-- Sample store: user 1 holds one active strike whose reason has
48 characters. -/
def longReasonDb : StrikeDatabase :=
  ⟨[⟨1, 1, 9, reason48, 0, 72, true⟩], [], 2⟩

/-- A 51-character reason. -/
def reason51 : String :=
  String.mk (List.replicate 51 'b')

/-- Sample store: user 1 holds one active strike whose reason has
51 characters. -/
def longReasonDb51 : StrikeDatabase :=
  ⟨[⟨1, 1, 9, reason51, 0, 72, true⟩], [], 2⟩

section Lemmas

/-- After an upsert, the upserted user's row is found with the new count. -/
theorem upsertViolation_find_self (uid cnt now : Nat) :
    ∀ vs : List ViolationRow,
      (upsertViolation uid cnt now vs).find? (fun v => v.user_id == uid)
        = some ⟨uid, cnt, some now⟩ := by
  intro vs
  induction vs with
  | nil => simp [upsertViolation, List.find?]
  | cons v rest ih =>
      by_cases h : v.user_id = uid
      · simp [upsertViolation, h, List.find?]
      · simp [upsertViolation, h, List.find?, ih]

/-- An upsert for one user leaves every other user's row lookup alone. -/
theorem upsertViolation_find_other (uid cnt now uid2 : Nat) (h : uid2 ≠ uid) :
    ∀ vs : List ViolationRow,
      (upsertViolation uid cnt now vs).find? (fun v => v.user_id == uid2)
        = vs.find? (fun v => v.user_id == uid2) := by
  have hb : (uid == uid2) = false := beq_eq_false_iff_ne.mpr (Ne.symm h)
  intro vs
  induction vs with
  | nil => simp [upsertViolation, List.find?, hb]
  | cons v rest ih =>
      by_cases hv : v.user_id = uid
      · have hv2 : (v.user_id == uid2) = false := by
          refine beq_eq_false_iff_ne.mpr ?_
          omega
        simp [upsertViolation, hv, List.find?, hb, hv2]
      · simp only [upsertViolation, beq_eq_false_iff_ne, hv, if_neg, List.find?,
          beq_iff_eq]
        by_cases hv2 : v.user_id = uid2
        · simp [hv2]
        · simp [hv2, ih]

/-- Incrementing a user's violation count sets it to the old value plus 1
and leaves every other user's count alone. -/
theorem get_violation_count_increment (db : StrikeDatabase) (uid now uid2 : Nat) :
    get_violation_count (increment_violation_count db uid now).2 uid2
      = if uid2 = uid then get_violation_count db uid + 1
        else get_violation_count db uid2 := by
  by_cases h : uid2 = uid
  · subst h
    simp [get_violation_count, increment_violation_count, upsertViolation_find_self]
  · simp [get_violation_count, increment_violation_count,
      upsertViolation_find_other uid _ now uid2 h, h]

/-- The violation count only reads the `violations` rows. -/
theorem get_violation_count_congr {db db' : StrikeDatabase} (uid : Nat)
    (h : db'.violations = db.violations) :
    get_violation_count db' uid = get_violation_count db uid := by
  unfold get_violation_count
  rw [h]

/-- `add_strike` leaves the `violations` rows alone. -/
theorem add_strike_violations (db : StrikeDatabase) (uid mid : Nat)
    (reason : String) (rh now : Nat) :
    (add_strike db uid mid reason rh now).2.2.violations = db.violations := rfl

/-- `add_strike` raises the issued-to user's active-strike count by one. -/
theorem activeCount_add_strike (db : StrikeDatabase) (uid mid : Nat)
    (reason : String) (rh now : Nat) :
    activeCount (add_strike db uid mid reason rh now).2.2 uid
      = activeCount db uid + 1 := by
  simp [activeCount, add_strike, List.filter_append, isActiveOf]

/-- The active-strike count `add_strike` returns is the count after the
insertion. -/
theorem add_strike_count (db : StrikeDatabase) (uid mid : Nat)
    (reason : String) (rh now : Nat) :
    (add_strike db uid mid reason rh now).2.1
      = activeCount (add_strike db uid mid reason rh now).2.2 uid := rfl

/-- Inserting into the descending order is a permutation of consing. -/
theorem insertTsDesc_perm (s : Strike) :
    ∀ l : List Strike, (insertTsDesc s l).Perm (s :: l) := by
  intro l
  induction l with
  | nil => simp [insertTsDesc]
  | cons t ts ih =>
      by_cases h : t.timestamp ≤ s.timestamp
      · simp [insertTsDesc, h]
      · simp only [insertTsDesc, h, if_neg, not_false_iff]
        exact (ih.cons t).trans (List.Perm.swap s t ts)

/-- The descending sort permutes its input. -/
theorem sortTsDesc_perm : ∀ l : List Strike, (sortTsDesc l).Perm l := by
  intro l
  induction l with
  | nil => simp [sortTsDesc]
  | cons s ss ih => exact (insertTsDesc_perm s (sortTsDesc ss)).trans (ih.cons s)

/-- Inserting keeps the list pairwise descending by timestamp. -/
theorem insertTsDesc_pairwise (s : Strike) :
    ∀ l : List Strike,
      l.Pairwise (fun a b => b.timestamp ≤ a.timestamp) →
      (insertTsDesc s l).Pairwise (fun a b => b.timestamp ≤ a.timestamp) := by
  intro l
  induction l with
  | nil => intro _; simp [insertTsDesc]
  | cons t ts ih =>
      intro hp
      rcases List.pairwise_cons.mp hp with ⟨ht, hts⟩
      by_cases h : t.timestamp ≤ s.timestamp
      · simp only [insertTsDesc, h, if_pos]
        refine List.pairwise_cons.mpr ⟨?_, hp⟩
        intro b hb
        rcases List.mem_cons.mp hb with rfl | hb
        · omega
        · have := ht b hb
          omega
      · simp only [insertTsDesc, h, if_neg, not_false_iff]
        refine List.pairwise_cons.mpr ⟨?_, ih hts⟩
        intro b hb
        have hmem := (insertTsDesc_perm s ts).mem_iff.mp hb
        rcases List.mem_cons.mp hmem with rfl | hb'
        · omega
        · exact ht b hb'

/-- The descending sort is pairwise descending by timestamp. -/
theorem sortTsDesc_pairwise :
    ∀ l : List Strike,
      (sortTsDesc l).Pairwise (fun a b => b.timestamp ≤ a.timestamp) := by
  intro l
  induction l with
  | nil => simp [sortTsDesc]
  | cons s ss ih => exact insertTsDesc_pairwise s (sortTsDesc ss) ih

/-- The head of `get_active_strikes` is an active strike of the user with
a maximal timestamp among the user's active strikes. -/
theorem get_active_strikes_head (db : StrikeDatabase) (uid : Nat)
    (top : Strike) (rest : List Strike)
    (h : get_active_strikes db uid = top :: rest) :
    top ∈ db.strikes ∧ isActiveOf uid top = true ∧
      ∀ s ∈ db.strikes, isActiveOf uid s = true → s.timestamp ≤ top.timestamp := by
  have hperm : (top :: rest).Perm (db.strikes.filter (isActiveOf uid)) := by
    have := sortTsDesc_perm (db.strikes.filter (isActiveOf uid))
    rw [get_active_strikes] at h
    rw [← h]
    exact this
  have htopmem : top ∈ db.strikes.filter (isActiveOf uid) :=
    hperm.mem_iff.mp (List.mem_cons_self top rest)
  have htop := List.mem_filter.mp htopmem
  refine ⟨htop.1, htop.2, ?_⟩
  intro s hs hact
  have hsmem : s ∈ top :: rest :=
    hperm.mem_iff.mpr (List.mem_filter.mpr ⟨hs, hact⟩)
  have hpw : (top :: rest).Pairwise (fun a b => b.timestamp ≤ a.timestamp) := by
    have := sortTsDesc_pairwise (db.strikes.filter (isActiveOf uid))
    rw [get_active_strikes] at h
    rw [h] at this
    exact this
  rcases List.mem_cons.mp hsmem with heq | hs'
  · rw [heq]
  · exact (List.pairwise_cons.mp hpw).1 s hs'

/-- `check_punishment` never touches the `strikes` rows. -/
theorem check_punishment_strikes (db : StrikeDatabase)
    (uid cnt now : Nat) (ok : Bool) :
    (check_punishment db uid cnt now ok).db.strikes = db.strikes := by
  unfold check_punishment
  by_cases h : 3 ≤ cnt
  · cases ok <;> simp [h, increment_violation_count]
  · simp [h]

/-- Below the threshold, `check_punishment` returns the stored count,
changes nothing and requests nothing. -/
theorem check_punishment_below (db : StrikeDatabase)
    (uid cnt now : Nat) (ok : Bool) (h : cnt < 3) :
    check_punishment db uid cnt now ok
      = ⟨get_violation_count db uid, db, none, false⟩ := by
  unfold check_punishment
  rw [if_neg (by omega)]

/-- At or above the threshold, `check_punishment` increments the stored
count by one, returns the incremented value and requests the table
duration for it, whether or not the timeout call succeeds. -/
theorem check_punishment_atLeast (db : StrikeDatabase)
    (uid cnt now : Nat) (ok : Bool) (h : 3 ≤ cnt) :
    check_punishment db uid cnt now ok
      = ⟨get_violation_count db uid + 1,
         (increment_violation_count db uid now).2,
         some (dictGet PUNISHMENT_ESCALATION (get_violation_count db uid + 1) 1440),
         ok⟩ := by
  have hread := get_violation_count_increment db uid now uid
  rw [if_pos rfl] at hread
  simp only [increment_violation_count] at hread
  unfold check_punishment
  rw [if_pos h]
  cases ok <;> simp [increment_violation_count, hread]

/-- Fault-free `give_strike` is the `try` body's outcome. -/
theorem give_strike_nofault (db : StrikeDatabase) (uid mid : Nat)
    (reason : String) (now : Nat) (ok : Bool) :
    give_strike db uid mid reason now ok none none
      = ⟨⟨(add_strike db uid mid reason STRIKE_RESET_HOURS now).1,
          (add_strike db uid mid reason STRIKE_RESET_HOURS now).2.1,
          (check_punishment (add_strike db uid mid reason STRIKE_RESET_HOURS now).2.2
            uid (add_strike db uid mid reason STRIKE_RESET_HOURS now).2.1 now ok).violation_count,
          now + STRIKE_RESET_HOURS⟩,
         (check_punishment (add_strike db uid mid reason STRIKE_RESET_HOURS now).2.2
            uid (add_strike db uid mid reason STRIKE_RESET_HOURS now).2.1 now ok).db,
         (check_punishment (add_strike db uid mid reason STRIKE_RESET_HOURS now).2.2
            uid (add_strike db uid mid reason STRIKE_RESET_HOURS now).2.1 now ok).requested,
         (check_punishment (add_strike db uid mid reason STRIKE_RESET_HOURS now).2.2
            uid (add_strike db uid mid reason STRIKE_RESET_HOURS now).2.1 now ok).applied⟩ := rfl

/-- A row the expiry sweep has rewritten is never due again. -/
theorem isDue_sweepFlip (now : Nat) (s : Strike) :
    isDue now (sweepFlip now s) = false := by
  unfold sweepFlip
  by_cases h : isDue now s
  · rw [if_pos h]
    simp [isDue]
  · rw [if_neg h]
    simpa using h

/-- Rewriting a row twice with the expiry sweep is the same as once. -/
theorem sweepFlip_idem (now : Nat) (s : Strike) :
    sweepFlip now (sweepFlip now s) = sweepFlip now s := by
  have h := isDue_sweepFlip now s
  generalize hs : sweepFlip now s = t at h ⊢
  unfold sweepFlip
  simp [h]

/-- After a sweep no row of the store is due. -/
theorem sweep_filter_nil (now : Nat) (l : List Strike) :
    (l.map (sweepFlip now)).filter (isDue now) = [] := by
  rw [List.filter_eq_nil_iff]
  intro a ha
  rcases List.mem_map.mp ha with ⟨s, _, rfl⟩
  simp [isDue_sweepFlip]

/-- Sweeping twice rewrites the rows exactly as sweeping once. -/
theorem sweep_map_idem (now : Nat) (l : List Strike) :
    (l.map (sweepFlip now)).map (sweepFlip now) = l.map (sweepFlip now) := by
  rw [List.map_map]
  exact List.map_congr_left (fun s _ => sweepFlip_idem now s)

/-- The sweep rewrite touches no field besides `active`. -/
theorem sweepFlip_frame (now : Nat) (s : Strike) :
    ((sweepFlip now s).id, (sweepFlip now s).user_id, (sweepFlip now s).moderator_id,
     (sweepFlip now s).reason, (sweepFlip now s).timestamp, (sweepFlip now s).reset_time)
      = (s.id, s.user_id, s.moderator_id, s.reason, s.timestamp, s.reset_time) := by
  by_cases h : isDue now s = true <;> simp [sweepFlip, h]

/-- A swept row counts as active for a user exactly when it was active
for the user and not due. -/
theorem isActiveOf_sweepFlip (uid now : Nat) (s : Strike) :
    isActiveOf uid (sweepFlip now s) = (isActiveOf uid s && !(isDue now s)) := by
  unfold sweepFlip
  by_cases h : isDue now s
  · rw [if_pos h]
    simp only [h]
    simp [isActiveOf]
  · rw [if_neg h]
    have hf : isDue now s = false := by simpa using h
    simp [hf]

/-- Active-of-user count of the swept rows: the rows active for the user
and not due. -/
theorem sweep_activeCount (uid now : Nat) :
    ∀ l : List Strike,
      ((l.map (sweepFlip now)).filter (isActiveOf uid)).length
        = (l.filter (fun s => isActiveOf uid s && !(isDue now s))).length := by
  intro l
  induction l with
  | nil => rfl
  | cons s ss ih =>
      simp only [List.map_cons, List.filter_cons, isActiveOf_sweepFlip]
      by_cases h : (isActiveOf uid s && !(isDue now s)) = true
      · simp [h, ih]
      · simp [h, ih]

/-- A row with a different id is untouched by the single-strike update. -/
theorem deactFlip_other (sid : Nat) (s : Strike) (h : s.id ≠ sid) :
    deactFlip sid s = s := by
  simp [deactFlip, h]

/-- Deactivating one strike by id, when ids are unique and the strike is
active for the user, lowers the user's active count by exactly one. -/
theorem activeCount_deactFlip (uid : Nat) (top : Strike) :
    ∀ l : List Strike,
      (l.map (fun s => s.id)).Nodup → top ∈ l → isActiveOf uid top = true →
      ((l.map (deactFlip top.id)).filter (isActiveOf uid)).length + 1
        = (l.filter (isActiveOf uid)).length := by
  intro l
  induction l with
  | nil => intro _ hmem _; cases hmem
  | cons x xs ih =>
      intro hnd hmem hact
      rw [List.map_cons] at hnd
      rcases List.nodup_cons.mp hnd with ⟨hxid, hndxs⟩
      rcases List.mem_cons.mp hmem with rfl | hmem'
      · have hflip : deactFlip top.id top = { top with active := false } := by
          simp [deactFlip]
        have hrest : xs.map (deactFlip top.id) = xs := by
          refine List.map_congr_left ?_ |>.trans (List.map_id xs)
          intro s hs
          refine deactFlip_other top.id s ?_
          intro hid
          exact hxid (hid ▸ List.mem_map_of_mem (fun s => s.id) hs)
        simp only [List.map_cons, hflip, hrest, List.filter_cons]
        have : isActiveOf uid { top with active := false } = false := by
          simp [isActiveOf]
        simp [this, hact]
      · have hxother : deactFlip top.id x = x := by
          refine deactFlip_other top.id x ?_
          intro hid
          exact hxid (hid ▸ List.mem_map_of_mem (fun s => s.id) hmem')
        simp only [List.map_cons, hxother, List.filter_cons]
        by_cases hx : isActiveOf uid x = true
        · simp [hx]
          exact ih hndxs hmem' hact
        · simp [hx]
          exact ih hndxs hmem' hact

/-- `remove_strike` on a user with no active strikes is a no-op. -/
theorem remove_strike_empty (db : StrikeDatabase) (uid : Nat)
    (h : get_active_strikes db uid = []) :
    remove_strike db uid = (⟨false, 0, get_violation_count db uid⟩, db) := by
  unfold remove_strike
  rw [h]

/-- `remove_strike` on a user with an active strike deactivates the head
of `get_active_strikes` and reads the updated info back. -/
theorem remove_strike_cons (db : StrikeDatabase) (uid : Nat)
    (top : Strike) (rest : List Strike)
    (h : get_active_strikes db uid = top :: rest) :
    remove_strike db uid
      = (⟨true, (get_user_strike_info (deactivateStrike db top.id) uid).active_strikes,
          (get_user_strike_info (deactivateStrike db top.id) uid).violation_count⟩,
         deactivateStrike db top.id) := by
  unfold remove_strike
  rw [h]

/-- `remove_strike` leaves the `violations` rows alone. -/
theorem remove_strike_violations (db : StrikeDatabase) (uid : Nat) :
    (remove_strike db uid).2.violations = db.violations := by
  unfold remove_strike
  cases hg : get_active_strikes db uid with
  | nil => rfl
  | cons top rest => rfl

/-- `reset_all_strikes` leaves the `violations` rows alone. -/
theorem reset_all_strikes_violations (db : StrikeDatabase) (uid : Nat) :
    (reset_all_strikes db uid).2.violations = db.violations := by
  unfold reset_all_strikes
  by_cases h : (get_user_strike_info db uid).active_strikes == 0 <;> simp [h]

/-- The expiry sweep leaves the `violations` rows alone. -/
theorem reset_expired_strikes_violations (db : StrikeDatabase) (now : Nat) :
    (reset_expired_strikes db now).2.violations = db.violations := rfl

/-- Fault-free `give_strike` (any read-fault) commits exactly the
punishment decision's store. -/
theorem give_strike_db_eq (db : StrikeDatabase) (uid mid : Nat)
    (reason : String) (now : Nat) (ok : Bool) (f2 : Option String) :
    (give_strike db uid mid reason now ok none f2).db
      = (check_punishment (add_strike db uid mid reason STRIKE_RESET_HOURS now).2.2
          uid (add_strike db uid mid reason STRIKE_RESET_HOURS now).2.1 now ok).db := by
  cases f2 <;> rfl

/-- A `give_strike` whose insertion raises leaves the store unchanged. -/
theorem give_strike_db_addfault (db : StrikeDatabase) (uid mid : Nat)
    (reason : String) (now : Nat) (ok : Bool) (e : String) (f2 : Option String) :
    (give_strike db uid mid reason now ok (some e) f2).db = db := rfl

/-- The punishment decision never lowers any user's violation count. -/
theorem gvc_check_punishment_le (db : StrikeDatabase)
    (uid cnt now : Nat) (ok : Bool) (uid2 : Nat) :
    get_violation_count db uid2
      ≤ get_violation_count (check_punishment db uid cnt now ok).db uid2 := by
  by_cases h : 3 ≤ cnt
  · rw [check_punishment_atLeast db uid cnt now ok h]
    rw [get_violation_count_increment db uid now uid2]
    by_cases h2 : uid2 = uid
    · subst h2; simp
    · simp [h2]
  · rw [check_punishment_below db uid cnt now ok (by omega)]

/-- No engine operation lowers any user's violation count. -/
theorem gvc_applyOp_le (now : Nat) (db : StrikeDatabase) (op : StrikeOp)
    (uid2 : Nat) :
    get_violation_count db uid2 ≤ get_violation_count (applyOp now db op) uid2 := by
  cases op with
  | give uid mid reason ok f1 f2 =>
      cases f1 with
      | none =>
          show get_violation_count db uid2
            ≤ get_violation_count (give_strike db uid mid reason now ok none f2).db uid2
          rw [give_strike_db_eq]
          have hadd : get_violation_count
              (add_strike db uid mid reason STRIKE_RESET_HOURS now).2.2 uid2
              = get_violation_count db uid2 :=
            get_violation_count_congr uid2 (add_strike_violations db uid mid reason _ now)
          rw [← hadd]
          exact gvc_check_punishment_le _ uid _ now ok uid2
      | some e =>
          show get_violation_count db uid2
            ≤ get_violation_count (give_strike db uid mid reason now ok (some e) f2).db uid2
          rw [give_strike_db_addfault]
  | removeOne uid =>
      exact le_of_eq
        (get_violation_count_congr uid2 (remove_strike_violations db uid)).symm
  | resetAll uid =>
      exact le_of_eq
        (get_violation_count_congr uid2 (reset_all_strikes_violations db uid)).symm
  | sweep =>
      exact le_of_eq
        (get_violation_count_congr uid2 (reset_expired_strikes_violations db now)).symm

/-- No sequence of engine operations lowers any user's violation count. -/
theorem gvc_runOps_le (uid2 : Nat) :
    ∀ (ops : List (Nat × StrikeOp)) (db : StrikeDatabase),
      get_violation_count db uid2 ≤ get_violation_count (runOps db ops) uid2 := by
  intro ops
  induction ops with
  | nil => intro db; exact le_refl _
  | cons p rest ih =>
      intro db
      exact le_trans (gvc_applyOp_le p.1 db p.2 uid2) (ih (applyOp p.1 db p.2))

/-- The active-strike count only reads the `strikes` rows. -/
theorem activeCount_congr {db db' : StrikeDatabase} (uid : Nat)
    (h : db'.strikes = db.strikes) :
    activeCount db' uid = activeCount db uid := by
  unfold activeCount
  rw [h]

end Lemmas

section Claims

/-- C2: For every violation_count n ≥ 1, the punishment duration resolved
by the escalation decision (`PUNISHMENT_ESCALATION.get(violation_count,
1440)`, `strike_manager.py` line 45) is exactly 1→5, 2→10, 3→60, 4→120,
5→180, 6→1440 minutes, and 1440 minutes for every n ≥ 7. -/
theorem punishment_table_resolution :
    (dictGet PUNISHMENT_ESCALATION 1 1440 = 5 ∧
     dictGet PUNISHMENT_ESCALATION 2 1440 = 10 ∧
     dictGet PUNISHMENT_ESCALATION 3 1440 = 60 ∧
     dictGet PUNISHMENT_ESCALATION 4 1440 = 120 ∧
     dictGet PUNISHMENT_ESCALATION 5 1440 = 180 ∧
     dictGet PUNISHMENT_ESCALATION 6 1440 = 1440) ∧
    ∀ n : Nat, 7 ≤ n → dictGet PUNISHMENT_ESCALATION n 1440 = 1440 := by
  constructor
  · exact ⟨rfl, rfl, rfl, rfl, rfl, rfl⟩
  · intro n hn
    have h1 : (n == 1) = false := beq_eq_false_iff_ne.mpr (by omega)
    have h2 : (n == 2) = false := beq_eq_false_iff_ne.mpr (by omega)
    have h3 : (n == 3) = false := beq_eq_false_iff_ne.mpr (by omega)
    have h4 : (n == 4) = false := beq_eq_false_iff_ne.mpr (by omega)
    have h5 : (n == 5) = false := beq_eq_false_iff_ne.mpr (by omega)
    have h6 : (n == 6) = false := beq_eq_false_iff_ne.mpr (by omega)
    simp [dictGet, PUNISHMENT_ESCALATION, List.lookup, h1, h2, h3, h4, h5, h6]

/-- Witness for C2 at the concrete clamped input n = 9. -/
theorem punishment_table_resolution_witness :
    (7 : Nat) ≤ 9 ∧ dictGet PUNISHMENT_ESCALATION 9 1440 = 1440 :=
  ⟨by decide, punishment_table_resolution.2 9 (by decide)⟩

/-- C4: the expiry sweep deactivates exactly the still-active strikes with
`reset_time < now` (none remains due) and returns their number, and it is
idempotent: a second sweep with unchanged data and the same `now`
returns 0 and changes nothing. -/
theorem expiry_sweep_idempotent :
    ∀ (db : StrikeDatabase) (now : Nat),
      (reset_expired_strikes db now).1 = (db.strikes.filter (isDue now)).length ∧
      (reset_expired_strikes db now).2.strikes.filter (isDue now) = [] ∧
      reset_expired_strikes (reset_expired_strikes db now).2 now
        = (0, (reset_expired_strikes db now).2) := by
  intro db now
  refine ⟨rfl, sweep_filter_nil now db.strikes, ?_⟩
  cases db with
  | mk st vs nid =>
      unfold reset_expired_strikes
      simp only []
      rw [sweep_filter_nil, sweep_map_idem]
      simp

/-- C6: the expiry sweep only flips `active` flags: it leaves the
`violations` rows (hence every user's violation count) and every other
strike field untouched, and the resulting active count of a user is the
count of their active, not-yet-due strikes. -/
theorem expiry_sweep_frame :
    ∀ (db : StrikeDatabase) (now uid : Nat),
      (reset_expired_strikes db now).2.violations = db.violations ∧
      (reset_expired_strikes db now).2.next_id = db.next_id ∧
      get_violation_count (reset_expired_strikes db now).2 uid
        = get_violation_count db uid ∧
      (reset_expired_strikes db now).2.strikes.map
          (fun s => (s.id, s.user_id, s.moderator_id, s.reason, s.timestamp, s.reset_time))
        = db.strikes.map
          (fun s => (s.id, s.user_id, s.moderator_id, s.reason, s.timestamp, s.reset_time)) ∧
      activeCount (reset_expired_strikes db now).2 uid
        = (db.strikes.filter (fun s => isActiveOf uid s && !(isDue now s))).length := by
  intro db now uid
  refine ⟨rfl, rfl, get_violation_count_congr uid rfl, ?_, ?_⟩
  · show (db.strikes.map (sweepFlip now)).map _ = _
    rw [List.map_map]
    refine List.map_congr_left ?_
    intro s _
    exact sweepFlip_frame now s
  · exact sweep_activeCount uid now db.strikes

/-- C10: a successful `give_strike` returns `next_reset = now +
STRIKE_RESET_HOURS`, the expiry of the strike it just inserted (the last
`strikes` row), not the earliest active expiry that
`get_user_strike_info` reports: on a store holding an older strike
expiring at tick 10, issuing at tick 20 returns 92 while the info view
reports 10. -/
theorem next_reset_is_new_strike_expiry :
    (∀ (db : StrikeDatabase) (uid mid : Nat) (reason : String) (now : Nat) (ok : Bool),
       (give_strike db uid mid reason now ok none none).result.next_reset
         = now + STRIKE_RESET_HOURS ∧
       (give_strike db uid mid reason now ok none none).db.strikes.getLast?
         = some ⟨db.next_id, uid, mid, reason, now, now + STRIKE_RESET_HOURS, true⟩) ∧
    ((give_strike earlyExpiryDb 1 9 ("late") 20 true none none).result.next_reset = 92 ∧
     (get_user_strike_info (give_strike earlyExpiryDb 1 9 ("late") 20 true none none).db 1).next_reset
       = some 10 ∧
     (get_user_strike_info (give_strike earlyExpiryDb 1 9 ("late") 20 true none none).db 1).next_reset
       ≠ some (give_strike earlyExpiryDb 1 9 ("late") 20 true none none).result.next_reset) := by
  constructor
  · intro db uid mid reason now ok
    rw [give_strike_nofault]
    refine ⟨rfl, ?_⟩
    show (check_punishment (add_strike db uid mid reason STRIKE_RESET_HOURS now).2.2
        uid (add_strike db uid mid reason STRIKE_RESET_HOURS now).2.1 now ok).db.strikes.getLast?
      = _
    rw [check_punishment_strikes]
    show (db.strikes ++ [_]).getLast? = _
    rw [List.getLast?_concat]
  · refine ⟨by decide, by decide, by decide⟩

/-- C1: a fault-free `give_strike` decides escalation from the active
strike count re-read after the insertion (one more than before): at 3 or
above, the lifetime violation count is incremented by exactly 1 and a
punishment of the table duration is requested; below 3 the stored
violation count is returned unchanged and no enforcement action is
taken. -/
theorem escalation_rechecks_fresh_count (db : StrikeDatabase) (uid mid : Nat)
    (reason : String) (now : Nat) (ok : Bool) (g : GiveStrikeOutcome)
    (hg : g = give_strike db uid mid reason now ok none none) :
    g.result.strike_count = activeCount db uid + 1 ∧
    g.result.strike_count = activeCount g.db uid ∧
    (3 ≤ g.result.strike_count →
       get_violation_count g.db uid = get_violation_count db uid + 1 ∧
       g.result.violation_count = get_violation_count db uid + 1 ∧
       g.requested
         = some (dictGet PUNISHMENT_ESCALATION (get_violation_count db uid + 1) 1440)) ∧
    (g.result.strike_count < 3 →
       g.result.violation_count = get_violation_count db uid ∧
       g.db.violations = db.violations ∧
       g.requested = none ∧ g.applied = false) := by
  subst hg
  rw [give_strike_nofault]
  have hcnt : (add_strike db uid mid reason STRIKE_RESET_HOURS now).2.1
      = activeCount db uid + 1 := by
    rw [add_strike_count, activeCount_add_strike]
  have hvadd : get_violation_count
      (add_strike db uid mid reason STRIKE_RESET_HOURS now).2.2 uid
      = get_violation_count db uid :=
    get_violation_count_congr uid (add_strike_violations db uid mid reason _ now)
  refine ⟨hcnt, ?_, ?_, ?_⟩
  · show (add_strike db uid mid reason STRIKE_RESET_HOURS now).2.1
      = activeCount (check_punishment _ uid _ now ok).db uid
    rw [activeCount_congr uid (check_punishment_strikes _ uid _ now ok),
      add_strike_count]
  · intro h3
    rw [check_punishment_atLeast _ uid _ now ok (by
      show 3 ≤ (add_strike db uid mid reason STRIKE_RESET_HOURS now).2.1
      exact h3)]
    refine ⟨?_, by rw [hvadd], by rw [hvadd]⟩
    show get_violation_count (increment_violation_count _ uid now).2 uid = _
    rw [get_violation_count_increment, if_pos rfl, hvadd]
  · intro h3
    rw [check_punishment_below _ uid _ now ok (by
      show (add_strike db uid mid reason STRIKE_RESET_HOURS now).2.1 < 3
      exact h3)]
    exact ⟨hvadd, add_strike_violations db uid mid reason _ now, rfl, rfl⟩

/-- Witness for C1: on a store where user 1 already has 2 active strikes
and violation count 4, the third strike escalates (count becomes 5,
duration 180 requested); on a store where user 1 has 1 active strike, the
second strike does not escalate. -/
theorem escalation_rechecks_fresh_count_witness :
    get_violation_count (give_strike escalatedDb 1 9 ("ping") 2 true none none).db 1 = 5 ∧
    (give_strike escalatedDb 1 9 ("ping") 2 true none none).requested = some 180 ∧
    (give_strike earlyExpiryDb 1 9 ("ping") 2 true none none).result.violation_count = 0 ∧
    (give_strike earlyExpiryDb 1 9 ("ping") 2 true none none).requested = none := by
  have h := escalation_rechecks_fresh_count escalatedDb 1 9 ("ping") 2 true
    (give_strike escalatedDb 1 9 ("ping") 2 true none none) rfl
  have h3 := h.2.2.1 (by decide)
  have h' := escalation_rechecks_fresh_count earlyExpiryDb 1 9 ("ping") 2 true
    (give_strike earlyExpiryDb 1 9 ("ping") 2 true none none) rfl
  have h3' := h'.2.2.2 (by decide)
  refine ⟨?_, ?_, ?_, ?_⟩
  · rw [h3.1]; decide
  · rw [h3.2.2]; decide
  · rw [h3'.1]; decide
  · exact h3'.2.2.1

/-- C3: `increment_violation_count` adds exactly 1 to the stored count
(an absent record counting as 0) and returns the new value;
`remove_strike`, `reset_all_strikes` and the expiry sweep leave every
user's violation count exactly as it was; over any sequence of engine
operations the count is monotonically non-decreasing. -/
theorem violation_count_monotone :
    (∀ (db : StrikeDatabase) (uid now : Nat),
       (increment_violation_count db uid now).1 = get_violation_count db uid + 1 ∧
       get_violation_count (increment_violation_count db uid now).2 uid
         = get_violation_count db uid + 1) ∧
    (∀ (db : StrikeDatabase) (uid uid2 : Nat),
       get_violation_count (remove_strike db uid).2 uid2 = get_violation_count db uid2) ∧
    (∀ (db : StrikeDatabase) (uid uid2 : Nat),
       get_violation_count (reset_all_strikes db uid).2 uid2 = get_violation_count db uid2) ∧
    (∀ (db : StrikeDatabase) (now uid : Nat),
       get_violation_count (reset_expired_strikes db now).2 uid = get_violation_count db uid) ∧
    (∀ (db : StrikeDatabase) (ops : List (Nat × StrikeOp)) (uid : Nat),
       get_violation_count db uid ≤ get_violation_count (runOps db ops) uid) := by
  refine ⟨?_, ?_, ?_, ?_, ?_⟩
  · intro db uid now
    refine ⟨rfl, ?_⟩
    rw [get_violation_count_increment, if_pos rfl]
  · intro db uid uid2
    exact get_violation_count_congr uid2 (remove_strike_violations db uid)
  · intro db uid uid2
    exact get_violation_count_congr uid2 (reset_all_strikes_violations db uid)
  · intro db now uid
    exact get_violation_count_congr uid (reset_expired_strikes_violations db now)
  · intro db ops uid
    exact gvc_runOps_le uid ops db

/-- C5 counterexample: in `tieDb` user 1 holds two active strikes with
the same timestamp and ids 1 and 2; `remove_strike` deactivates the
strike with id 1 and leaves id 2 active, so the removed strike is not
the one with the highest id among the tied timestamps. -/
theorem remove_strike_tie_highest_id_false :
    tieDb.strikes.map (fun s => s.timestamp) = [100, 100] ∧
    (get_active_strikes tieDb 1).map (fun s => s.id) = [1, 2] ∧
    (remove_strike tieDb 1).1.removed = true ∧
    ((remove_strike tieDb 1).2.strikes.filter (fun s => s.active)).map (fun s => s.id)
      = [2] := by
  decide

/-- C5 (amended): on a user with no active strikes `remove_strike`
changes nothing and returns removed=false; otherwise it deactivates
exactly one strike — the head of the newest-first active list, which has
a maximal timestamp among the user's active strikes (the code specifies
no tie-break toward the highest id; equal timestamps keep scan order) —
returns removed=true, and in both cases the violation count is
unaltered. -/
theorem remove_strike_spec (db : StrikeDatabase) (uid : Nat)
    (hnd : (db.strikes.map (fun s => s.id)).Nodup) :
    (get_active_strikes db uid = [] →
       remove_strike db uid = (⟨false, 0, get_violation_count db uid⟩, db)) ∧
    (∀ top rest, get_active_strikes db uid = top :: rest →
       (remove_strike db uid).1.removed = true ∧
       (remove_strike db uid).2 = deactivateStrike db top.id ∧
       activeCount (remove_strike db uid).2 uid + 1 = activeCount db uid ∧
       (remove_strike db uid).1.violation_count = get_violation_count db uid ∧
       get_violation_count (remove_strike db uid).2 uid = get_violation_count db uid ∧
       (∀ s ∈ db.strikes, isActiveOf uid s = true → s.timestamp ≤ top.timestamp)) := by
  constructor
  · exact remove_strike_empty db uid
  · intro top rest h
    have hhead := get_active_strikes_head db uid top rest h
    rw [remove_strike_cons db uid top rest h]
    refine ⟨rfl, rfl, ?_, ?_, ?_, hhead.2.2⟩
    · show activeCount (deactivateStrike db top.id) uid + 1 = activeCount db uid
      exact activeCount_deactFlip uid top db.strikes hnd hhead.1 hhead.2.1
    · show get_violation_count (deactivateStrike db top.id) uid = _
      exact get_violation_count_congr uid rfl
    · exact get_violation_count_congr uid rfl

/-- Witness for C5: the empty store is a no-op with removed=false; on a
store with one active strike the removal reports removed=true and lowers
the active count from 1 to 0. -/
theorem remove_strike_spec_witness :
    remove_strike (⟨[], [], 1⟩ : StrikeDatabase) 1
        = (⟨false, 0, 0⟩, (⟨[], [], 1⟩ : StrikeDatabase)) ∧
    (remove_strike earlyExpiryDb 1).1.removed = true ∧
    activeCount (remove_strike earlyExpiryDb 1).2 1 + 1 = activeCount earlyExpiryDb 1 := by
  have h0 := (remove_strike_spec (⟨[], [], 1⟩ : StrikeDatabase) 1 (by decide)).1 rfl
  have h1 := (remove_strike_spec earlyExpiryDb 1 (by decide)).2
    ⟨1, 1, 9, "old", 0, 10, true⟩ [] (by decide)
  exact ⟨h0, h1.1, h1.2.2.1⟩

/-- C7: when the platform denies the timed suspension (the timeout call
fails) during an escalation, the already persisted violation increment is
kept and the incremented value is both stored and returned, by
`check_punishment` and by the surrounding `give_strike`. -/
theorem enforcement_denied_keeps_bookkeeping :
    (∀ (db : StrikeDatabase) (uid cnt now : Nat), 3 ≤ cnt →
       (check_punishment db uid cnt now false).applied = false ∧
       get_violation_count (check_punishment db uid cnt now false).db uid
         = get_violation_count db uid + 1 ∧
       (check_punishment db uid cnt now false).violation_count
         = get_violation_count db uid + 1) ∧
    (∀ (db : StrikeDatabase) (uid mid : Nat) (reason : String) (now : Nat),
       2 ≤ activeCount db uid →
       (give_strike db uid mid reason now false none none).result.violation_count
         = get_violation_count db uid + 1 ∧
       get_violation_count (give_strike db uid mid reason now false none none).db uid
         = get_violation_count db uid + 1 ∧
       (give_strike db uid mid reason now false none none).applied = false) := by
  have hcp : ∀ (db : StrikeDatabase) (uid cnt now : Nat), 3 ≤ cnt →
      (check_punishment db uid cnt now false).applied = false ∧
      get_violation_count (check_punishment db uid cnt now false).db uid
        = get_violation_count db uid + 1 ∧
      (check_punishment db uid cnt now false).violation_count
        = get_violation_count db uid + 1 := by
    intro db uid cnt now h3
    rw [check_punishment_atLeast db uid cnt now false h3]
    refine ⟨rfl, ?_, rfl⟩
    show get_violation_count (increment_violation_count db uid now).2 uid = _
    rw [get_violation_count_increment, if_pos rfl]
  refine ⟨hcp, ?_⟩
  intro db uid mid reason now h2
  rw [give_strike_nofault]
  have h3 : 3 ≤ (add_strike db uid mid reason STRIKE_RESET_HOURS now).2.1 := by
    rw [add_strike_count, activeCount_add_strike]
    omega
  have hvadd : get_violation_count
      (add_strike db uid mid reason STRIKE_RESET_HOURS now).2.2 uid
      = get_violation_count db uid :=
    get_violation_count_congr uid (add_strike_violations db uid mid reason _ now)
  have hc := hcp (add_strike db uid mid reason STRIKE_RESET_HOURS now).2.2 uid
    (add_strike db uid mid reason STRIKE_RESET_HOURS now).2.1 now h3
  exact ⟨by rw [hc.2.2, hvadd], by rw [hc.2.1, hvadd], hc.1⟩

/-- Witness for C7: user 1 of `escalatedDb` (2 active strikes, violation
count 4) is struck while the platform denies the timeout: the count still
becomes 5, stored and returned, and nothing was applied. -/
theorem enforcement_denied_keeps_bookkeeping_witness :
    (check_punishment escalatedDb 1 3 2 false).violation_count = 5 ∧
    (give_strike escalatedDb 1 9 ("ping2") 2 false none none).result.violation_count = 5 ∧
    get_violation_count (give_strike escalatedDb 1 9 ("ping2") 2 false none none).db 1 = 5 ∧
    (give_strike escalatedDb 1 9 ("ping2") 2 false none none).applied = false := by
  have ha := enforcement_denied_keeps_bookkeeping.1 escalatedDb 1 3 2 (by decide)
  have hb := enforcement_denied_keeps_bookkeeping.2 escalatedDb 1 9 ("ping2") 2 (by decide)
  refine ⟨by rw [ha.2.2]; decide, by rw [hb.1]; decide, by rw [hb.2.1]; decide, hb.2.2⟩

/-- C8: `give_strike` never propagates an internal failure: whenever the
`try` body raises, the caller receives the well-formed zeroed dict
(strike_id 0, strike_count 0, violation_count 0) instead of an error. -/
theorem give_strike_swallows_failures (db : StrikeDatabase) (uid mid : Nat)
    (reason : String) (now : Nat) (ok : Bool) (f1 f2 : Option String) (e : String)
    (h : give_strikeTry db uid mid reason now ok f1 f2 = Except.error e) :
    (give_strike db uid mid reason now ok f1 f2).result = ⟨0, 0, 0, now⟩ := by
  unfold give_strike
  rw [h]
  cases f1 with
  | none => rfl
  | some e1 => rfl

/-- Witness for C8: a raising insertion yields the zeroed dict. -/
theorem give_strike_swallows_failures_witness :
    give_strikeTry earlyExpiryDb 1 9 ("x") 5 true (some ("io")) none
      = Except.error ("io") ∧
    (give_strike earlyExpiryDb 1 9 ("x") 5 true (some ("io")) none).result
      = ⟨0, 0, 0, 5⟩ :=
  ⟨rfl, give_strike_swallows_failures earlyExpiryDb 1 9 ("x") 5 true
    (some ("io")) none ("io") rfl⟩

set_option maxRecDepth 4000 in
/-- C9 counterexample: user 1's newest strike reason has 48 characters
(longer than 47); the dashboard shows it verbatim, not truncated to its
first 47 characters plus an ellipsis. -/
theorem dashboard_truncates_at_47_false :
    47 < reason48.length ∧
    dashboardLastReason longReasonDb 1 = some reason48 ∧
    reason48 ≠ reason48.take 47 ++ "..." := by
  decide

/-- C9 (amended): the dashboard entry shows the newest active strike's
reason truncated to its first 47 characters plus an ellipsis whenever the
reason is longer than 50 characters, and verbatim otherwise (lengths up
to 50 included). -/
theorem dashboard_reason_truncation (db : StrikeDatabase) (uid : Nat)
    (top : Strike) (rest : List Strike)
    (h : get_active_strikes db uid = top :: rest) :
    (50 < top.reason.length →
       dashboardLastReason db uid = some (top.reason.take 47 ++ "...")) ∧
    (top.reason.length ≤ 50 → dashboardLastReason db uid = some top.reason) := by
  unfold dashboardLastReason
  rw [h]
  constructor
  · intro hl
    simp [truncateReason, hl]
  · intro hl
    have hn : ¬ 50 < top.reason.length := by omega
    simp [truncateReason, hn]

/-- Witness for C9: a 48-character reason is shown verbatim and a
51-character reason is truncated. -/
theorem dashboard_reason_truncation_witness :
    dashboardLastReason longReasonDb 1 = some reason48 ∧
    dashboardLastReason longReasonDb51 1 = some (reason51.take 47 ++ "...") := by
  have h48 := dashboard_reason_truncation longReasonDb 1
    ⟨1, 1, 9, reason48, 0, 72, true⟩ [] rfl
  have h51 := dashboard_reason_truncation longReasonDb51 1
    ⟨1, 1, 9, reason51, 0, 72, true⟩ [] rfl
  exact ⟨h48.2 (by decide), h51.1 (by decide)⟩

end Claims

end HammerOfJustice
